import Mathlib

/-!
# Verification of `src/tools/aloadimage/imgload.c`

A shallow embedding of the three entry points of the asynchronous image
loader (`imgload_spawn`, `imgload_poll`, `imgload_reset`) and of the worker
branch of `imgload_spawn`, followed by theorems about them.

Modelling conventions
* `size_t` / `uintptr_t` are natural numbers reduced modulo `2 ^ 64`,
  `int` / `pid_t` are integers; `int` multiplication is reduced to 32 bits in
  two's complement.
* Every answer of the operating system is an input (an `*Env` record), and
  every call made is appended to a trace of `Call`s, so that statements such
  as "asks to release `n` bytes" or "sends SIGKILL to pid `p`" can be read off
  the result.
* The owner process only ever touches the header of the shared mapping, so
  the owner side state (`World`) tracks the header; the worker side state
  (`Region`) tracks header and pixel bytes. The copy into the pixel area is
  unbounded, as in the code: bytes that do not fit are counted as stored past
  the end of the region, and whether that faults is an answer of the system.
-/

namespace Imgload

/-! ## Machine integers and constants -/

/-- Two to the power 64: the modulus of `size_t` and `uintptr_t`. -/
def SIZE_MOD : Nat := 18446744073709551616

/-- Two's-complement reduction of a mathematical integer to a 32-bit C `int`. -/
def wrap_int (z : Int) : Int := (z + 2147483648) % 4294967296 - 2147483648

/-- Conversion of a signed C integer to `size_t` (modular, as in C). -/
def to_size_t (z : Int) : Nat := (z % 18446744073709551616).toNat

/-- Addition of two `size_t` / `uintptr_t` values. -/
def add64 (a b : Nat) : Nat := (a + b) % SIZE_MOD

/-- Subtraction of two `size_t` / `uintptr_t` values (wraps below zero). -/
def sub64 (a b : Nat) : Nat := (a % SIZE_MOD + (SIZE_MOD - b % SIZE_MOD)) % SIZE_MOD

/-- The null pointer. -/
def NULL : Nat := 0

/-- The value `(void*) -1` that `mmap` returns on failure. -/
def MAP_FAILED : Nat := 18446744073709551615

/-- Error number of an interrupted system call. -/
def EINTR : Int := 4

/-- Error number reported by `waitpid` when the pid is not a child. -/
def ECHILD : Int := 10

/-- Exit status of a successful run. -/
def EXIT_SUCCESS : Int := 0

/-- Exit status of a failed run. -/
def EXIT_FAILURE : Int := 1

/-- Signal number of the unconditional kill. -/
def SIGKILL : Int := 9

/-- Flag of `waitpid` asking not to block. -/
def WNOHANG : Int := 1

/-- Modelled from the spec: `sizeof(struct img_data)`; `imgload.h` is absent.
The layout of section 6 (int32, int32, size_t, bool, int32, int32) on an LP64
target occupies 28 bytes and is padded to the alignment of `size_t`. -/
def sizeof_img_data : Nat := 32

/-- Modelled from the spec: the offset of the member `buf` in
`struct img_data`; `imgload.h` is absent. By section 6 the pixel bytes follow
the header fields immediately, with no padding, so they start 28 bytes in. -/
def offsetof_buf : Nat := 28

/-! ## Data model -/

/-- Modelled from the spec: `struct img_data` is declared in the absent
`imgload.h`; these are the header fields of section 6, which are also the ones
`imgload.c` accesses (the flexible pixel array `buf` is kept apart). -/
structure img_data where
  w : Int
  h : Int
  buf_sz : Nat
  ready : Bool
  x : Int
  y : Int
deriving DecidableEq, Repr

/-- The header after `memset(out, 0, sizeof(struct img_data))`. -/
def img_data.zero : img_data :=
  { w := 0, h := 0, buf_sz := 0, ready := false, x := 0, y := 0 }

/-- Modelled from the spec: `struct img_state` (the Job of section 3) is
declared in the absent `imgload.h`; these are the fields `imgload.c` accesses. -/
structure img_state where
  fname : String
  is_stdin : Bool
  broken : Bool
  proc : Int
  out : Nat
  buf_lim : Nat
deriving DecidableEq, Repr

/-- Owner-side state: the job and the header of the mapping `tgt.out` points
to (`none` when no mapping lives at that address). -/
structure World where
  tgt : img_state
  shm : Option img_data
deriving DecidableEq, Repr

/-- A zero-initialised job with nothing mapped. -/
def World.init (fname : String) (is_stdin : Bool) : World :=
  { tgt := { fname := fname, is_stdin := is_stdin, broken := false, proc := 0,
             out := NULL, buf_lim := 0 },
    shm := none }

/-- Worker-side view of the mapping: header fields and pixel area, the latter
as a byte list whose length is the capacity minus `offsetof_buf`. -/
structure Region where
  hdr : img_data
  pix : List Nat
deriving DecidableEq, Repr

/-- Calls to the outside that the code makes, in the order it makes them. -/
inductive Call where
  | munmap (addr len : Nat)
  | mmap (len : Nat)
  | memset (addr len : Nat)
  | fork
  | waitpid (pid flags : Int)
  | kill (pid sig : Int)
  | printf (sc : Int)
  | sysconf_page_size
  | fopen (fname : String)
  | open_dev_null
  | dup2 (oldfd newfd : Int)
  | close (fd : Int)
  | fclose (stream : Int)
  | drop_shmif
  | setgid (gid : Nat)
  | setuid (uid : Nat)
  | setrlimit_zero (resource : Nat)
  | seccomp_load
  | stbi_load_from_file
  | memcpy (off len : Nat)
  | exit (code : Int)
deriving DecidableEq, Repr

/-- Faults that end the process instead of a return. -/
inductive Fault where
  | SIGSEGV
  | SIGFPE
deriving DecidableEq, Repr

/-- How the worker branch ends: `hist` lists the successive contents of the
region, oldest first, one entry per store. -/
inductive WorkerEnd where
  | exited (code : Int) (hist : List Region) (tr : List Call)
  | killed (f : Fault) (hist : List Region) (tr : List Call)
deriving DecidableEq, Repr

/-- Result of running one entry point in the calling process. -/
inductive Outcome (α : Type) where
  | ret (a : α) (w : World) (tr : List Call)
  | crash (f : Fault) (tr : List Call)
  | spin (tr : List Call)
  | child (e : WorkerEnd)
deriving DecidableEq, Repr

/-! ## Answers of the operating system -/

/-- One answer of `waitpid`: return value, `errno`, and the status word. -/
structure WaitRes where
  rc : Int
  errno : Int
  sc : Int
deriving DecidableEq, Repr

/-- The loop condition `rc == -1 && errno == EINTR`. -/
def is_eintr (r : WaitRes) : Bool := r.rc == -1 && r.errno == EINTR

/-- The retry loop around `waitpid`: consumes answers while they are
interrupted ones; yields the first other answer and the number of calls made,
or `none` when the script of answers ends with the loop still running. -/
def waitpid_retry : List WaitRes → Option (WaitRes × Nat)
  | [] => none
  | r :: rest =>
    if is_eintr r then (waitpid_retry rest).map (fun p => (p.1, p.2 + 1))
    else some (r, 1)

/-- What the decoder hands back when it returns a buffer. -/
structure Decoded where
  dw : Int
  dh : Int
  buf : List Nat
deriving DecidableEq, Repr

/-- Answers seen by the worker branch. `overrun_faults` says what lies behind
the region: unmapped memory, so that a store past the end of the region is a
fault, or mapped memory, so that the store goes through. -/
structure WorkerEnv where
  fopen_ok : Bool
  nfd : Int
  decoded : Option Decoded
  overrun_faults : Bool := true
deriving DecidableEq, Repr

/-- Answers seen by `imgload_spawn`. -/
structure SpawnEnv where
  mmap_ret : Nat
  fork_ret : Int
  worker : WorkerEnv
deriving DecidableEq, Repr

/-- Answers seen by `imgload_poll`. -/
structure PollEnv where
  waits : List WaitRes
  page_size : Int
  munmap_ret : Int
deriving DecidableEq, Repr

/-- Modelled from the spec: the two tunables declared outside `imgload.c`
(maximum region size in megabytes, taken to be a C `int`, and the switch that
disables the system call filter), plus whether the filter is compiled in. -/
structure Config where
  image_size_limit_mb : Int
  disable_syscall_flt : Bool
  enable_seccomp : Bool
deriving DecidableEq, Repr

/-! ## The worker branch of `imgload_spawn` (lines 55 to 145) -/

/-- The byte count `dw * dh * 4`, computed in `int` and converted to `size_t`. -/
def pixel_bytes (dw dh : Int) : Nat := to_size_t (wrap_int (wrap_int (dw * dh) * 4))

/-- Lines 62 to 76: redirect or close the standard streams. -/
def redirect_streams (is_stdin : Bool) (nfd : Int) : List Call :=
  if nfd ≠ -1 then
    (if is_stdin then [] else [Call.dup2 nfd 0])
      ++ [Call.dup2 nfd 1, Call.dup2 nfd 2, Call.close nfd]
  else
    (if is_stdin then [] else [Call.fclose 0]) ++ [Call.fclose 2, Call.fclose 1]

/-- Lines 81 to 116: drop the connection, the privileges, the limits, and
install the filter. -/
def harden (cfg : Config) (con : Bool) : List Call :=
  (if con then [Call.drop_shmif] else [])
    ++ [Call.setgid 65534, Call.setuid 65534,
        Call.setrlimit_zero 0, Call.setrlimit_zero 1,
        Call.setrlimit_zero 2, Call.setrlimit_zero 3]
    ++ (if cfg.enable_seccomp && !cfg.disable_syscall_flt then [Call.seccomp_load] else [])

/-- What `memcpy(out->buf, buf, n)` leaves behind: the region, and the number
of bytes stored past its end. -/
structure Copied where
  region : Region
  past : Nat
deriving DecidableEq, Repr

/-- Line 137, `memcpy(out->buf, buf, n)`: the copy has no bound, it fills the
pixel area from its start and stores whatever does not fit past the end of
the region. Source bytes past the end of `buf` read as zero. -/
def memcpy_pix (r : Region) (buf : List Nat) (n : Nat) : Copied :=
  let m := min n r.pix.length
  { region := { r with pix := (List.range m).map (fun i => buf.getD i 0) ++ r.pix.drop m },
    past := n - r.pix.length }

/-- Lines 134 to 145: decode and publish. A copy that runs past the region
either faults there or, when the memory behind the region is mapped, goes
through, after which the header is stored as usual. -/
def publish (r : Region) (decoded : Option Decoded) (overrun_faults : Bool)
    (tr : List Call) : WorkerEnd :=
  let tr := tr ++ [Call.stbi_load_from_file]
  match decoded with
  | some d =>
    let n := pixel_bytes d.dw d.dh
    let tr := tr ++ [Call.memcpy offsetof_buf n]
    let c := memcpy_pix r d.buf n
    let r1 := c.region
    if c.past ≠ 0 && overrun_faults then
      .killed .SIGSEGV [r, r1] tr
    else
      let r2 : Region := { r1 with hdr := { r1.hdr with w := d.dw } }
      let r3 : Region := { r2 with hdr := { r2.hdr with h := d.dh } }
      let r4 : Region := { r3 with hdr := { r3.hdr with buf_sz := n } }
      let r5 : Region := { r4 with hdr := { r4.hdr with ready := true } }
      .exited EXIT_SUCCESS [r, r1, r2, r3, r4, r5] (tr ++ [Call.exit EXIT_SUCCESS])
  | none => .exited EXIT_FAILURE [r] (tr ++ [Call.exit EXIT_FAILURE])

/-- The worker branch: everything `imgload_spawn` does after `fork` returned
zero. It never returns to the caller. -/
def worker (cfg : Config) (con : Bool) (tgt : img_state) (r : Region)
    (env : WorkerEnv) : WorkerEnd :=
  let tr := if tgt.is_stdin then [] else [Call.fopen tgt.fname]
  if !(tgt.is_stdin || env.fopen_ok) then
    .exited EXIT_FAILURE [r] (tr ++ [Call.exit EXIT_FAILURE])
  else
    let tr := tr ++ [Call.open_dev_null] ++ redirect_streams tgt.is_stdin env.nfd
      ++ harden cfg con
    publish r env.decoded env.overrun_faults tr

/-- The successive region contents recorded in a worker outcome. -/
def WorkerEnd.hist : WorkerEnd → List Region
  | .exited _ hist _ => hist
  | .killed _ hist _ => hist

/-- The region as the worker leaves it. -/
def WorkerEnd.final (e : WorkerEnd) : Option Region := e.hist.getLast?

/-! ## `imgload_spawn` (lines 31 to 53) -/

/-- The capacity `image_size_limit_mb * 1024 * 1024` as stored in `buf_lim`. -/
def region_limit (cfg : Config) : Nat :=
  to_size_t (wrap_int (wrap_int (cfg.image_size_limit_mb * 1024) * 1024))

/-- Owner side of `imgload_spawn`; the `child` outcome is the worker branch. -/
def imgload_spawn (cfg : Config) (con : Bool) (w : World) (env : SpawnEnv) : Outcome Bool :=
  let tr := if w.tgt.out ≠ NULL then [Call.munmap w.tgt.out w.tgt.buf_lim] else []
  let lim := region_limit cfg
  let tr := tr ++ [Call.mmap lim]
  let tgt : img_state := { w.tgt with buf_lim := lim, out := env.mmap_ret }
  if tgt.out = NULL then
    .ret false { tgt := tgt, shm := none } tr
  else
    let tr := tr ++ [Call.memset tgt.out sizeof_img_data]
    if tgt.out = MAP_FAILED then
      .crash .SIGSEGV tr
    else
      let tr := tr ++ [Call.fork]
      let tgt : img_state := { tgt with proc := env.fork_ret }
      if tgt.proc = -1 then
        .ret false { tgt := { tgt with out := NULL }, shm := none }
          (tr ++ [Call.munmap tgt.out tgt.buf_lim])
      else if tgt.proc ≠ 0 then
        .ret true { tgt := tgt, shm := some img_data.zero } tr
      else
        .child (worker cfg con tgt
          { hdr := img_data.zero, pix := List.replicate (lim - offsetof_buf) 0 }
          env.worker)

/-! ## `imgload_poll` (lines 147 to 196) -/

/-- Lines 181 to 185: the first page boundary at or after
`base + sizeof(struct img_data) + out_sz`, in `uintptr_t` arithmetic. -/
def truncate_end (base out_sz pgsz : Nat) : Nat :=
  let e := add64 (add64 base sizeof_img_data) out_sz
  if e % pgsz ≠ 0 then add64 e (sub64 pgsz (e % pgsz)) else e

/-- Line 189: the byte count handed to the trailing `munmap`. -/
def truncate_ntr (base out_sz pgsz buf_lim : Nat) : Nat :=
  sub64 buf_lim (sub64 (truncate_end base out_sz pgsz) base)

/-- The non-blocking completion check. -/
def imgload_poll (w : World) (env : PollEnv) : Outcome Bool :=
  if w.tgt.proc = 0 ∨ w.tgt.out = NULL then
    .ret true w []
  else
    match waitpid_retry env.waits with
    | none => .spin (List.replicate env.waits.length (Call.waitpid w.tgt.proc WNOHANG))
    | some (r, n) =>
      let tr := List.replicate n (Call.waitpid w.tgt.proc WNOHANG)
      if r.rc = -1 then
        .ret true { w with tgt := { w.tgt with broken := true } } tr
      else if r.rc = 0 then
        .ret false w tr
      else
        match w.shm with
        | none => .crash .SIGSEGV tr
        | some hdr =>
          let out_sz := hdr.buf_sz
          if out_sz > w.tgt.buf_lim then
            .ret true
              { tgt := { w.tgt with proc := 0, out := NULL, broken := true }, shm := none }
              (tr ++ [Call.munmap w.tgt.out w.tgt.buf_lim])
          else
            let tr := tr ++ [Call.printf r.sc]
            let tgt : img_state := { w.tgt with broken := decide (r.sc ≠ EXIT_SUCCESS), proc := 0 }
            let hdr : img_data := { hdr with x := 0, y := 0 }
            let pgsz := to_size_t env.page_size
            let tr := tr ++ [Call.sysconf_page_size]
            if pgsz = 0 then
              .crash .SIGFPE tr
            else
              let e := truncate_end tgt.out out_sz pgsz
              let ntr := truncate_ntr tgt.out out_sz pgsz tgt.buf_lim
              let tr := tr ++ [Call.munmap e ntr]
              if env.munmap_ret = 0 then
                .ret true { tgt := { tgt with buf_lim := sub64 tgt.buf_lim ntr }, shm := some hdr } tr
              else
                .ret true { tgt := tgt, shm := some hdr } tr

/-! ## `imgload_reset` (lines 202 to 216) -/

/-- Lines 210 to 215: clear `broken` and release the region, if one is held. -/
def release_region (tgt : img_state) (shm : Option img_data) (tr : List Call) : Outcome Unit :=
  let tgt : img_state := { tgt with broken := false }
  if tgt.out ≠ NULL then
    .ret () { tgt := { tgt with out := NULL, buf_lim := 0 }, shm := none }
      (tr ++ [Call.munmap tgt.out tgt.buf_lim])
  else
    .ret () { tgt := tgt, shm := shm } tr

/-- Kill and reap a remaining worker, then release the region. `waits` are the
answers of the blocking `waitpid`. -/
def imgload_reset (w : World) (waits : List WaitRes) : Outcome Unit :=
  if w.tgt.proc ≠ 0 then
    let tr := [Call.kill w.tgt.proc SIGKILL]
    match waitpid_retry waits with
    | none => .spin (tr ++ List.replicate waits.length (Call.waitpid w.tgt.proc 0))
    | some (_, n) =>
      release_region { w.tgt with proc := 0 } w.shm
        (tr ++ List.replicate n (Call.waitpid w.tgt.proc 0))
  else
    release_region w.tgt w.shm []

/-! ## Wait status words -/

/-- How a child can end, as `waitpid` without `WUNTRACED` reports it. -/
inductive ChildEnd where
  | exited (code : Nat)
  | signaled (sig : Nat) (core : Bool)
deriving DecidableEq, Repr

/-- Range of the fields: exit codes are one byte, signal numbers are between
1 and 126. -/
def ChildEnd.wf : ChildEnd → Prop
  | .exited code => code < 256
  | .signaled sig _ => 1 ≤ sig ∧ sig < 127

instance ChildEnd.decidable_wf (e : ChildEnd) : Decidable e.wf := by
  cases e <;> unfold ChildEnd.wf <;> infer_instance

/-- The status word the kernel stores for a terminated child: exit code in
bits 8 to 15, terminating signal in bits 0 to 6, core flag in bit 7. -/
def wait_status : ChildEnd → Int
  | .exited code => (code : Int) * 256
  | .signaled sig core => (sig : Int) + (if core then 128 else 0)

/-! ## Reachable job states -/

/-- States the owner can be in: start from a zeroed job, call the three entry
points with any answers of the system, and let the worker store anything into
the header of a live mapping. -/
inductive Reachable (cfg : Config) : World → Prop where
  | init (fname : String) (is_stdin : Bool) : Reachable cfg (World.init fname is_stdin)
  | spawn {w w2 : World} {con b : Bool} {env : SpawnEnv} {tr : List Call} :
      Reachable cfg w → imgload_spawn cfg con w env = .ret b w2 tr → Reachable cfg w2
  | poll {w w2 : World} {b : Bool} {env : PollEnv} {tr : List Call} :
      Reachable cfg w → imgload_poll w env = .ret b w2 tr → Reachable cfg w2
  | reset {w w2 : World} {waits : List WaitRes} {tr : List Call} :
      Reachable cfg w → imgload_reset w waits = .ret () w2 tr → Reachable cfg w2
  | worker_store {w : World} {h h2 : img_data} :
      Reachable cfg w → w.shm = some h → Reachable cfg { w with shm := some h2 }

/-! ## Helper lemmas -/

/-- The last of a list extended by two entries is the second of them. -/
theorem getLast_append_pair (l : List Call) (a b : Call) :
    (l ++ [a, b]).getLast? = some b := by
  rw [show l ++ [a, b] = (l ++ [a]) ++ [b] by simp]
  exact List.getLast?_concat _

/-- The last of a list extended by three entries is the third of them. -/
theorem getLast_append_triple (l : List Call) (a b c : Call) :
    (l ++ [a, b, c]).getLast? = some c := by
  rw [show l ++ [a, b, c] = (l ++ [a, b]) ++ [c] by simp]
  exact List.getLast?_concat _

/-- The loop condition of the retry loop, as a proposition. -/
theorem is_eintr_iff (r : WaitRes) : is_eintr r = true ↔ (r.rc = -1 ∧ r.errno = EINTR) := by
  simp [is_eintr]

/-- The retry loop skips any run of interrupted answers and stops at the first
other answer, having made one call per answer consumed. -/
theorem waitpid_retry_append (pre rest : List WaitRes) (r : WaitRes)
    (hpre : ∀ a ∈ pre, a.rc = -1 ∧ a.errno = EINTR)
    (hr : ¬ (r.rc = -1 ∧ r.errno = EINTR)) :
    waitpid_retry (pre ++ r :: rest) = some (r, pre.length + 1) := by
  induction pre with
  | nil =>
    have h : is_eintr r = false := by
      rw [← Bool.not_eq_true, is_eintr_iff]; exact hr
    simp [waitpid_retry, h]
  | cons a pre ih =>
    have ha : is_eintr a = true := (is_eintr_iff a).2 (hpre a (List.mem_cons_self a pre))
    have ih2 := ih (fun b hb => hpre b (List.mem_cons_of_mem a hb))
    simp [waitpid_retry, ha, ih2]

/-- The completion path of `imgload_poll` in closed form: worker reaped,
claimed size within capacity, non-zero page size. -/
theorem poll_completion_eq (w : World) (hdr : img_data) (env : PollEnv) (r : WaitRes) (n : Nat)
    (hproc : w.tgt.proc ≠ 0) (hout : w.tgt.out ≠ NULL) (hshm : w.shm = some hdr)
    (hw : waitpid_retry env.waits = some (r, n))
    (hdone : r.rc ≠ -1 ∧ r.rc ≠ 0) (hsz : hdr.buf_sz ≤ w.tgt.buf_lim)
    (hpg : to_size_t env.page_size ≠ 0) :
    imgload_poll w env
      = .ret true
          { tgt := { w.tgt with
                      broken := decide (r.sc ≠ EXIT_SUCCESS), proc := 0,
                      buf_lim :=
                        if env.munmap_ret = 0 then
                          sub64 w.tgt.buf_lim
                            (truncate_ntr w.tgt.out hdr.buf_sz (to_size_t env.page_size)
                              w.tgt.buf_lim)
                        else w.tgt.buf_lim },
            shm := some { hdr with x := 0, y := 0 } }
          (List.replicate n (Call.waitpid w.tgt.proc WNOHANG)
            ++ [Call.printf r.sc, Call.sysconf_page_size,
                Call.munmap (truncate_end w.tgt.out hdr.buf_sz (to_size_t env.page_size))
                  (truncate_ntr w.tgt.out hdr.buf_sz (to_size_t env.page_size) w.tgt.buf_lim)]) := by
  have hnlt : ¬ (w.tgt.buf_lim < hdr.buf_sz) := Nat.not_lt.mpr hsz
  by_cases hmu : env.munmap_ret = 0
  · simp [imgload_poll, hproc, hout, hw, hdone.1, hdone.2, hshm, hnlt, hpg, hmu]
  · simp [imgload_poll, hproc, hout, hw, hdone.1, hdone.2, hshm, hnlt, hpg, hmu]

/-! ## Claims about `imgload_poll` -/

/-- C7: when the liveness check answers zero (worker still running), after
any number of interrupted attempts, `imgload_poll` returns false and the job
and the region header are unchanged; the only calls made are the `waitpid`s. -/
theorem poll_still_running (w : World) (pre rest : List WaitRes) (r : WaitRes) (pg mu : Int)
    (hproc : w.tgt.proc ≠ 0) (hout : w.tgt.out ≠ NULL)
    (hpre : ∀ a ∈ pre, a.rc = -1 ∧ a.errno = EINTR) (hr : r.rc = 0) :
    imgload_poll w { waits := pre ++ r :: rest, page_size := pg, munmap_ret := mu }
      = .ret false w (List.replicate (pre.length + 1) (Call.waitpid w.tgt.proc WNOHANG)) := by
  have hw := waitpid_retry_append pre rest r hpre (by simp [hr])
  simp [imgload_poll, hproc, hout, hw, hr]

/-- Witness of C7: a job with worker 7, two interrupted attempts, then zero. -/
theorem poll_still_running_witness :
    imgload_poll
        { tgt := { fname := "a.png", is_stdin := false, broken := false, proc := 7,
                   out := 65536, buf_lim := 1048576 },
          shm := some img_data.zero }
        { waits := [⟨-1, EINTR, 0⟩, ⟨-1, EINTR, 0⟩] ++ ⟨0, 0, 0⟩ :: [],
          page_size := 4096, munmap_ret := 0 }
      = .ret false
        { tgt := { fname := "a.png", is_stdin := false, broken := false, proc := 7,
                   out := 65536, buf_lim := 1048576 },
          shm := some img_data.zero }
        (List.replicate ([(⟨-1, EINTR, 0⟩ : WaitRes), ⟨-1, EINTR, 0⟩].length + 1)
          (Call.waitpid 7 WNOHANG)) :=
  poll_still_running _ [⟨-1, EINTR, 0⟩, ⟨-1, EINTR, 0⟩] [] ⟨0, 0, 0⟩ 4096 0
    (by decide) (by decide) (by decide) rfl

/-- C5: for a job with a worker and a mapped region whose worker has
terminated (the liveness check answered neither -1 nor 0, with any status),
a claimed size above the capacity makes `imgload_poll` unmap the whole region,
clear `out` and `proc`, set `broken` and return true; a claimed size within
the capacity (page size not zero) keeps the region reference and the mapping
with its header. -/
theorem poll_oversize (w : World) (hdr : img_data) (pre rest : List WaitRes) (r : WaitRes)
    (pg mu : Int)
    (hproc : w.tgt.proc ≠ 0) (hout : w.tgt.out ≠ NULL) (hshm : w.shm = some hdr)
    (hpre : ∀ a ∈ pre, a.rc = -1 ∧ a.errno = EINTR)
    (hdone : r.rc ≠ -1 ∧ r.rc ≠ 0) :
    (w.tgt.buf_lim < hdr.buf_sz →
      imgload_poll w { waits := pre ++ r :: rest, page_size := pg, munmap_ret := mu }
        = .ret true
            { tgt := { w.tgt with proc := 0, out := NULL, broken := true }, shm := none }
            (List.replicate (pre.length + 1) (Call.waitpid w.tgt.proc WNOHANG)
              ++ [Call.munmap w.tgt.out w.tgt.buf_lim]))
    ∧ (hdr.buf_sz ≤ w.tgt.buf_lim → to_size_t pg ≠ 0 →
      ∃ w2 tr,
        imgload_poll w { waits := pre ++ r :: rest, page_size := pg, munmap_ret := mu }
          = .ret true w2 tr
        ∧ w2.tgt.out = w.tgt.out ∧ w2.shm = some { hdr with x := 0, y := 0 }) := by
  have hw := waitpid_retry_append pre rest r hpre (by simp [hdone.1])
  constructor
  · intro hlt
    simp [imgload_poll, hproc, hout, hw, hdone.1, hdone.2, hshm, hlt]
  · intro hle hpg
    exact ⟨_, _, poll_completion_eq w hdr
      { waits := pre ++ r :: rest, page_size := pg, munmap_ret := mu } r (pre.length + 1)
      hproc hout hshm hw hdone hle hpg, rfl, rfl⟩

/-- Witness of C5: worker 7 reaped with status 0, capacity one megabyte, and a
header claiming two megabytes. -/
theorem poll_oversize_witness :
    imgload_poll
        { tgt := { fname := "a.png", is_stdin := false, broken := false, proc := 7,
                   out := 65536, buf_lim := 1048576 },
          shm := some { img_data.zero with buf_sz := 2097152 } }
        { waits := [] ++ ⟨7, 0, 0⟩ :: [], page_size := 4096, munmap_ret := 0 }
      = .ret true
          { tgt := { fname := "a.png", is_stdin := false, broken := true, proc := 0,
                     out := NULL, buf_lim := 1048576 },
            shm := none }
          (List.replicate (([] : List WaitRes).length + 1) (Call.waitpid 7 WNOHANG)
            ++ [Call.munmap 65536 1048576]) :=
  (poll_oversize
    { tgt := { fname := "a.png", is_stdin := false, broken := false, proc := 7,
               out := 65536, buf_lim := 1048576 },
      shm := some { img_data.zero with buf_sz := 2097152 } }
    { img_data.zero with buf_sz := 2097152 } [] [] ⟨7, 0, 0⟩ 4096 0
    (by decide) (by decide) rfl (by simp) (by decide)).1 (by decide)

/-- C6: for a job whose worker has terminated with a claimed size within the
capacity, and for every way `e` the worker can have ended, `imgload_poll`
returns true, `broken` becomes true exactly when the worker did not exit with
code `EXIT_SUCCESS` (whatever `broken` was before), `proc` becomes 0, the
header fields `x` and `y` become 0 and `w`, `h`, `buf_sz`, `ready` keep their
values. -/
theorem poll_normal_completion (w : World) (hdr : img_data) (pre rest : List WaitRes)
    (pid errno pg mu : Int) (e : ChildEnd)
    (hproc : w.tgt.proc ≠ 0) (hout : w.tgt.out ≠ NULL) (hshm : w.shm = some hdr)
    (hpre : ∀ a ∈ pre, a.rc = -1 ∧ a.errno = EINTR)
    (hdone : pid ≠ -1 ∧ pid ≠ 0) (he : e.wf)
    (hsz : hdr.buf_sz ≤ w.tgt.buf_lim) (hpg : to_size_t pg ≠ 0) :
    ∃ w2 tr hdr2,
      imgload_poll w
          { waits := pre ++ ⟨pid, errno, wait_status e⟩ :: rest, page_size := pg,
            munmap_ret := mu }
        = .ret true w2 tr
      ∧ (w2.tgt.broken = true ↔ e ≠ ChildEnd.exited 0)
      ∧ w2.tgt.proc = 0
      ∧ w2.shm = some hdr2
      ∧ hdr2.x = 0 ∧ hdr2.y = 0
      ∧ hdr2.w = hdr.w ∧ hdr2.h = hdr.h ∧ hdr2.buf_sz = hdr.buf_sz ∧ hdr2.ready = hdr.ready := by
  have hw := waitpid_retry_append pre rest ⟨pid, errno, wait_status e⟩ hpre (by simp [hdone.1])
  refine ⟨_, _, _, poll_completion_eq w hdr
      { waits := pre ++ ⟨pid, errno, wait_status e⟩ :: rest, page_size := pg, munmap_ret := mu }
      ⟨pid, errno, wait_status e⟩ (pre.length + 1)
      hproc hout hshm hw hdone hsz hpg, ?_, rfl, rfl, rfl, rfl, rfl, rfl, rfl, rfl⟩
  simp only [decide_eq_true_eq, EXIT_SUCCESS]
  cases e with
  | exited code =>
    simp only [wait_status, ne_eq, ChildEnd.exited.injEq]
    constructor
    · intro h hc
      apply h
      subst hc
      rfl
    · intro h hc
      apply h
      omega
  | signaled sig core =>
    simp only [wait_status, ne_eq, not_false_eq_true, iff_true]
    have h1 := he.1
    cases core <;> simp <;> omega

/-- Witness of C6: worker 7 killed by signal 11 (no core), claimed size 40000
within a capacity of one megabyte. -/
theorem poll_normal_completion_witness :
    ∃ w2 tr hdr2,
      imgload_poll
          { tgt := { fname := "a.png", is_stdin := false, broken := false, proc := 7,
                     out := 65536, buf_lim := 1048576 },
            shm := some { w := 100, h := 100, buf_sz := 40000, ready := true, x := 3, y := 4 } }
          { waits := [⟨-1, EINTR, 0⟩] ++ ⟨7, 0, wait_status (.signaled 11 false)⟩ :: [],
            page_size := 4096, munmap_ret := 0 }
        = .ret true w2 tr
      ∧ (w2.tgt.broken = true ↔ ChildEnd.signaled 11 false ≠ ChildEnd.exited 0)
      ∧ w2.tgt.proc = 0
      ∧ w2.shm = some hdr2
      ∧ hdr2.x = 0 ∧ hdr2.y = 0
      ∧ hdr2.w = 100 ∧ hdr2.h = 100 ∧ hdr2.buf_sz = 40000 ∧ hdr2.ready = true :=
  poll_normal_completion
    { tgt := { fname := "a.png", is_stdin := false, broken := false, proc := 7,
               out := 65536, buf_lim := 1048576 },
      shm := some { w := 100, h := 100, buf_sz := 40000, ready := true, x := 3, y := 4 } }
    { w := 100, h := 100, buf_sz := 40000, ready := true, x := 3, y := 4 }
    [⟨-1, EINTR, 0⟩] [] 7 0 4096 0 (.signaled 11 false)
    (by decide) (by decide) rfl (by decide) (by decide) ⟨by decide, by decide⟩
    (by decide) (by decide)

/-- A job without worker handle or without region makes `imgload_poll` return
true at once, with no call and no change. -/
theorem poll_nothing_outstanding (w : World) (env : PollEnv)
    (h : w.tgt.proc = 0 ∨ w.tgt.out = NULL) : imgload_poll w env = .ret true w [] := by
  simp [imgload_poll, h]

/-- C1, as the code has it: the first call returns true through the
liveness-check error exit (`waitpid` answers -1 with `ECHILD`), which keeps
worker handle and region; the next call, whose check answers 0, returns
false. -/
theorem poll_not_idempotent_after_wait_error :
    imgload_poll
        { tgt := { fname := "a.png", is_stdin := false, broken := false, proc := 7,
                   out := 65536, buf_lim := 1048576 },
          shm := some img_data.zero }
        { waits := [⟨-1, ECHILD, 0⟩], page_size := 4096, munmap_ret := 0 }
      = .ret true
        { tgt := { fname := "a.png", is_stdin := false, broken := true, proc := 7,
                   out := 65536, buf_lim := 1048576 },
          shm := some img_data.zero }
        [Call.waitpid 7 WNOHANG]
    ∧ imgload_poll
        { tgt := { fname := "a.png", is_stdin := false, broken := true, proc := 7,
                   out := 65536, buf_lim := 1048576 },
          shm := some img_data.zero }
        { waits := [⟨0, 0, 0⟩], page_size := 4096, munmap_ret := 0 }
      = .ret false
        { tgt := { fname := "a.png", is_stdin := false, broken := true, proc := 7,
                   out := 65536, buf_lim := 1048576 },
          shm := some img_data.zero }
        [Call.waitpid 7 WNOHANG] := by
  constructor <;> decide

/-- C1 amended: if `imgload_poll` returns true on any path other than the
liveness-check error exit (nothing outstanding, oversize result, normal
completion), every later call returns true, makes no call and leaves the job
and the header unchanged, whatever the system would answer. After a
liveness-check error exit the handle and the region are kept and a later call
repeats the check; when that check fails again the call returns true and
changes nothing. -/
theorem poll_idempotent_after_completion (w w2 : World) (env : PollEnv) (tr : List Call)
    (h : imgload_poll w env = .ret true w2 tr) :
    ((w.tgt.proc = 0 ∨ w.tgt.out = NULL
        ∨ ∃ r n, waitpid_retry env.waits = some (r, n) ∧ r.rc ≠ -1) →
      ∀ env2, imgload_poll w2 env2 = .ret true w2 [])
    ∧ ((w.tgt.proc ≠ 0 ∧ w.tgt.out ≠ NULL
        ∧ ∃ r n, waitpid_retry env.waits = some (r, n) ∧ r.rc = -1) →
      ∀ env2 r2 n2, waitpid_retry env2.waits = some (r2, n2) → r2.rc = -1 →
        imgload_poll w2 env2
          = .ret true w2 (List.replicate n2 (Call.waitpid w2.tgt.proc WNOHANG))) := by
  constructor
  · intro hpath env2
    apply poll_nothing_outstanding
    by_cases hg : w.tgt.proc = 0 ∨ w.tgt.out = NULL
    · rw [poll_nothing_outstanding w env hg] at h
      injection h with _ hw _
      rw [← hw]; exact hg
    · have hproc : w.tgt.proc ≠ 0 := fun hc => hg (Or.inl hc)
      have hout : w.tgt.out ≠ NULL := fun hc => hg (Or.inr hc)
      obtain ⟨r, n, hr, hrc⟩ : ∃ r n, waitpid_retry env.waits = some (r, n) ∧ r.rc ≠ -1 := by
        rcases hpath with hp | hp | hp
        · exact absurd hp hproc
        · exact absurd hp hout
        · exact hp
      by_cases hrc0 : r.rc = 0
      · simp [imgload_poll, hproc, hout, hr, hrc0] at h
      · cases hshm : w.shm with
        | none => simp [imgload_poll, hproc, hout, hr, hrc, hrc0, hshm] at h
        | some hdr =>
          by_cases hlt : w.tgt.buf_lim < hdr.buf_sz
          · simp [imgload_poll, hproc, hout, hr, hrc, hrc0, hshm, hlt] at h
            rw [← h.1]; left; rfl
          · by_cases hpg : to_size_t env.page_size = 0
            · simp [imgload_poll, hproc, hout, hr, hrc, hrc0, hshm, hlt, hpg] at h
            · rw [poll_completion_eq w hdr env r n hproc hout hshm hr ⟨hrc, hrc0⟩
                (Nat.le_of_not_lt hlt) hpg] at h
              injection h with _ hw _
              rw [← hw]; left; rfl
  · rintro ⟨hproc, hout, r, n, hr, hrc⟩ env2 r2 n2 hr2 hrc2
    simp [imgload_poll, hproc, hout, hr, hrc] at h
    obtain ⟨hw, _⟩ := h
    subst hw
    simp [imgload_poll, hproc, hout, hr2, hrc2]

/-- Witness of C1 amended: the normal completion of worker 7, then a later
call whose liveness check would answer 0. -/
theorem poll_idempotent_after_completion_witness :
    imgload_poll
        { tgt := { fname := "a.png", is_stdin := false, broken := false, proc := 0,
                   out := 65536, buf_lim := 40960 },
          shm := some { w := 100, h := 100, buf_sz := 40000, ready := true, x := 0, y := 0 } }
        { waits := [⟨0, 0, 0⟩], page_size := 4096, munmap_ret := 0 }
      = .ret true
        { tgt := { fname := "a.png", is_stdin := false, broken := false, proc := 0,
                   out := 65536, buf_lim := 40960 },
          shm := some { w := 100, h := 100, buf_sz := 40000, ready := true, x := 0, y := 0 } }
        [] :=
  (poll_idempotent_after_completion
    { tgt := { fname := "a.png", is_stdin := false, broken := false, proc := 7,
               out := 65536, buf_lim := 1048576 },
      shm := some { w := 100, h := 100, buf_sz := 40000, ready := true, x := 3, y := 4 } }
    { tgt := { fname := "a.png", is_stdin := false, broken := false, proc := 0,
               out := 65536, buf_lim := 40960 },
      shm := some { w := 100, h := 100, buf_sz := 40000, ready := true, x := 0, y := 0 } }
    { waits := [⟨7, 0, 0⟩], page_size := 4096, munmap_ret := 0 }
    [Call.waitpid 7 WNOHANG, Call.printf 0, Call.sysconf_page_size,
     Call.munmap 106496 1007616]
    (by decide)).1
    (Or.inr (Or.inr ⟨⟨7, 0, 0⟩, 1, by decide, by decide⟩))
    { waits := [⟨0, 0, 0⟩], page_size := 4096, munmap_ret := 0 }

/-! ## Claims about `imgload_reset` and the reachable states -/

/-- The retry loop ends whenever the answers contain one that is not an
interrupted call. -/
theorem waitpid_retry_some (waits : List WaitRes)
    (h : ∃ a ∈ waits, ¬ (a.rc = -1 ∧ a.errno = EINTR)) :
    ∃ r n, waitpid_retry waits = some (r, n) := by
  induction waits with
  | nil => obtain ⟨a, ha, _⟩ := h; cases ha
  | cons b rest ih =>
    by_cases hb : is_eintr b = true
    · obtain ⟨a, ha, hna⟩ := h
      have hrest : ∃ a ∈ rest, ¬ (a.rc = -1 ∧ a.errno = EINTR) := by
        rcases List.mem_cons.1 ha with hab | hmem
        · subst hab
          exact absurd ((is_eintr_iff a).1 hb) hna
        · exact ⟨a, hmem, hna⟩
      obtain ⟨r, n, hrn⟩ := ih hrest
      exact ⟨r, n + 1, by simp [waitpid_retry, hb, hrn]⟩
    · exact ⟨b, 1, by simp [waitpid_retry, hb]⟩

/-- C3, as the code has it: spawn a worker with a one megabyte region, let the
worker claim two megabytes, poll (which discards the region but keeps
`buf_lim`), then reset: the capacity is still 1048576, not 0. -/
theorem reset_keeps_capacity_after_oversize :
    Reachable { image_size_limit_mb := 1, disable_syscall_flt := false, enable_seccomp := true }
        { tgt := { fname := "a.png", is_stdin := false, broken := true, proc := 0,
                   out := NULL, buf_lim := 1048576 },
          shm := none }
    ∧ imgload_reset
        { tgt := { fname := "a.png", is_stdin := false, broken := true, proc := 0,
                   out := NULL, buf_lim := 1048576 },
          shm := none } []
      = .ret ()
        { tgt := { fname := "a.png", is_stdin := false, broken := false, proc := 0,
                   out := NULL, buf_lim := 1048576 },
          shm := none } []
    ∧ (1048576 : Nat) ≠ 0 := by
  refine ⟨?_, by decide, by decide⟩
  have h0 : Reachable
      { image_size_limit_mb := 1, disable_syscall_flt := false, enable_seccomp := true }
      (World.init "a.png" false) := Reachable.init "a.png" false
  have h1 := @Reachable.spawn _ _
    { tgt := { fname := "a.png", is_stdin := false, broken := false, proc := 7,
               out := 65536, buf_lim := 1048576 },
      shm := some img_data.zero }
    false true
    { mmap_ret := 65536, fork_ret := 7,
      worker := { fopen_ok := true, nfd := 3, decoded := none } }
    [Call.mmap 1048576, Call.memset 65536 32, Call.fork] h0 (by decide)
  have h2 := @Reachable.worker_store _ _ _ { img_data.zero with buf_sz := 2097152 } h1 rfl
  exact @Reachable.poll _ _ _ true
    { waits := [⟨7, 0, 0⟩], page_size := 4096, munmap_ret := 0 }
    [Call.waitpid 7 WNOHANG, Call.munmap 65536 1048576] h2 (by decide)

/-- C3 amended: for every job state (reachable or not) and every sequence of
answers of the blocking `waitpid` that ends the retry loop, `imgload_reset`
returns, and afterwards there is no worker handle, no region, `broken` is
false, and the capacity is 0 provided the job held a region when reset was
called (or its capacity was 0 already). -/
theorem reset_postcondition (w : World) (waits : List WaitRes)
    (hwait : w.tgt.proc ≠ 0 → ∃ a ∈ waits, ¬ (a.rc = -1 ∧ a.errno = EINTR)) :
    ∃ w2 tr, imgload_reset w waits = .ret () w2 tr
      ∧ w2.tgt.proc = 0 ∧ w2.tgt.out = NULL ∧ w2.tgt.broken = false
      ∧ (w.tgt.out ≠ NULL ∨ w.tgt.buf_lim = 0 → w2.tgt.buf_lim = 0)
      ∧ (w.tgt.out ≠ NULL → w2.shm = none) := by
  by_cases hproc : w.tgt.proc = 0
  · by_cases hout : w.tgt.out = NULL
    · refine ⟨_, _, by simp [imgload_reset, release_region, hproc, hout]; exact ⟨rfl, rfl⟩,
        ?_, ?_, ?_, ?_, ?_⟩ <;> simp_all
    · refine ⟨_, _, by simp [imgload_reset, release_region, hproc, hout]; exact ⟨rfl, rfl⟩,
        ?_, ?_, ?_, ?_, ?_⟩ <;> simp_all
  · obtain ⟨r, n, hrn⟩ := waitpid_retry_some waits (hwait hproc)
    by_cases hout : w.tgt.out = NULL
    · refine ⟨_, _, by simp [imgload_reset, release_region, hproc, hout, hrn]; exact ⟨rfl, rfl⟩,
        ?_, ?_, ?_, ?_, ?_⟩ <;> simp_all
    · refine ⟨_, _, by simp [imgload_reset, release_region, hproc, hout, hrn]; exact ⟨rfl, rfl⟩,
        ?_, ?_, ?_, ?_, ?_⟩ <;> simp_all

/-- Witness of C3 amended: reset of a job whose worker 7 is still live; the
blocking wait is interrupted once, then reaps the killed worker. -/
theorem reset_postcondition_witness :
    ∃ w2 tr,
      imgload_reset
          { tgt := { fname := "a.png", is_stdin := false, broken := false, proc := 7,
                     out := 65536, buf_lim := 1048576 },
            shm := some img_data.zero }
          [⟨-1, EINTR, 0⟩, ⟨7, 0, 9⟩]
        = .ret () w2 tr
      ∧ w2.tgt.proc = 0 ∧ w2.tgt.out = NULL ∧ w2.tgt.broken = false
      ∧ ((65536 : Nat) ≠ NULL ∨ (1048576 : Nat) = 0 → w2.tgt.buf_lim = 0)
      ∧ ((65536 : Nat) ≠ NULL → w2.shm = none) :=
  reset_postcondition
    { tgt := { fname := "a.png", is_stdin := false, broken := false, proc := 7,
               out := 65536, buf_lim := 1048576 },
      shm := some img_data.zero }
    [⟨-1, EINTR, 0⟩, ⟨7, 0, 9⟩]
    (fun _ => ⟨⟨7, 0, 9⟩, by decide, by decide⟩)

/-- C10, as the code has it: when `fork` fails, `imgload_spawn` returns false
with `proc = -1` stored in the job (a reachable state), and `imgload_reset` on
that job sends SIGKILL to pid -1 and waits on pid -1. -/
theorem spawn_fork_failure_stores_minus_one :
    imgload_spawn
        { image_size_limit_mb := 1, disable_syscall_flt := false, enable_seccomp := true }
        false (World.init "a.png" false)
        { mmap_ret := 65536, fork_ret := -1,
          worker := { fopen_ok := true, nfd := 3, decoded := none } }
      = .ret false
        { tgt := { fname := "a.png", is_stdin := false, broken := false, proc := -1,
                   out := NULL, buf_lim := 1048576 },
          shm := none }
        [Call.mmap 1048576, Call.memset 65536 32, Call.fork, Call.munmap 65536 1048576]
    ∧ Reachable
        { image_size_limit_mb := 1, disable_syscall_flt := false, enable_seccomp := true }
        { tgt := { fname := "a.png", is_stdin := false, broken := false, proc := -1,
                   out := NULL, buf_lim := 1048576 },
          shm := none }
    ∧ imgload_reset
        { tgt := { fname := "a.png", is_stdin := false, broken := false, proc := -1,
                   out := NULL, buf_lim := 1048576 },
          shm := none }
        [⟨-1, ECHILD, 0⟩]
      = .ret ()
        { tgt := { fname := "a.png", is_stdin := false, broken := false, proc := 0,
                   out := NULL, buf_lim := 1048576 },
          shm := none }
        [Call.kill (-1) SIGKILL, Call.waitpid (-1) 0] := by
  have hs : imgload_spawn
        { image_size_limit_mb := 1, disable_syscall_flt := false, enable_seccomp := true }
        false (World.init "a.png" false)
        { mmap_ret := 65536, fork_ret := -1,
          worker := { fopen_ok := true, nfd := 3, decoded := none } }
      = .ret false
        { tgt := { fname := "a.png", is_stdin := false, broken := false, proc := -1,
                   out := NULL, buf_lim := 1048576 },
          shm := none }
        [Call.mmap 1048576, Call.memset 65536 32, Call.fork, Call.munmap 65536 1048576] := by
    decide
  exact ⟨hs, Reachable.spawn (Reachable.init "a.png" false) hs, by decide⟩

/-! ## Claims about `imgload_spawn` and the worker branch -/

/-- C4, as the code has it: when `mmap` answers `MAP_FAILED`, the test
`!tgt->out` does not fire; `imgload_spawn` goes on to `memset` at the address
`MAP_FAILED` and faults there instead of returning false. This holds for every
configuration, job and answer of `fork`. -/
theorem spawn_map_failed_not_detected (cfg : Config) (con : Bool) (w : World)
    (fork_ret : Int) (wenv : WorkerEnv) :
    imgload_spawn cfg con w { mmap_ret := MAP_FAILED, fork_ret := fork_ret, worker := wenv }
      = .crash .SIGSEGV
          ((if w.tgt.out ≠ NULL then [Call.munmap w.tgt.out w.tgt.buf_lim] else [])
            ++ [Call.mmap (region_limit cfg), Call.memset MAP_FAILED sizeof_img_data]) := by
  simp [imgload_spawn, MAP_FAILED, NULL]

/-- Where the code and C2 agree: when header plus claimed size fit the
capacity (base and capacity multiples of the page size, mapping below
`2 ^ 64`), the boundary is `base + P` for the least multiple `P` of the page
size at or above header plus claimed size, nothing wraps, the count handed to
`munmap` is `buf_lim - P` and the capacity after a successful release is `P`. -/
theorem truncate_within_capacity (base out_sz pg lim : Nat) (hpg : 0 < pg)
    (hbase : base % pg = 0) (hlim : lim % pg = 0)
    (hfit : sizeof_img_data + out_sz ≤ lim) (haddr : base + lim < SIZE_MOD) :
    ∃ P, P % pg = 0 ∧ sizeof_img_data + out_sz ≤ P ∧ P < sizeof_img_data + out_sz + pg
      ∧ P ≤ lim
      ∧ truncate_end base out_sz pg = base + P
      ∧ truncate_ntr base out_sz pg lim = lim - P
      ∧ sub64 lim (truncate_ntr base out_sz pg lim) = P := by
  have hlim_pos : 0 < lim := by unfold sizeof_img_data at hfit; omega
  have hpg_le : pg ≤ lim := Nat.le_of_dvd hlim_pos (Nat.dvd_of_mod_eq_zero hlim)
  have he0 : add64 (add64 base sizeof_img_data) out_sz = base + (sizeof_img_data + out_sz) := by
    unfold add64 SIZE_MOD sizeof_img_data at *; omega
  have hmod : (base + (sizeof_img_data + out_sz)) % pg = (sizeof_img_data + out_sz) % pg := by
    rw [Nat.add_mod, hbase, Nat.zero_add, Nat.mod_mod]
  have hq := Nat.div_add_mod (sizeof_img_data + out_sz) pg
  have hk := Nat.div_add_mod lim pg
  have ht : (sizeof_img_data + out_sz) % pg < pg := Nat.mod_lt _ hpg
  generalize hs : sizeof_img_data + out_sz = s at *
  generalize hT : s % pg = t at *
  by_cases h0 : t = 0
  · have hend : truncate_end base out_sz pg = base + s := by
      simp [truncate_end, he0, hmod, h0]
    have hntr : truncate_ntr base out_sz pg lim = lim - s := by
      unfold truncate_ntr
      rw [hend]
      unfold sub64 SIZE_MOD at *
      omega
    refine ⟨s, by omega, le_refl _, by omega, hfit, hend, hntr, ?_⟩
    rw [hntr]
    unfold sub64 SIZE_MOD at *
    omega
  · have hqk : s / pg < lim / pg := by
      apply Nat.lt_of_mul_lt_mul_left
      show pg * (s / pg) < pg * (lim / pg)
      omega
    have hle : pg * (s / pg) + pg ≤ pg * (lim / pg) := by
      have h := Nat.mul_le_mul_left pg (Nat.succ_le_of_lt hqk)
      rw [Nat.mul_succ] at h
      exact h
    have hP : (s + (pg - t)) % pg = 0 := by
      have : s + (pg - t) = pg * (s / pg + 1) := by
        rw [Nat.mul_add, Nat.mul_one]; omega
      rw [this]
      exact Nat.mul_mod_right _ _
    have hend : truncate_end base out_sz pg = base + (s + (pg - t)) := by
      have hsub : sub64 pg t = pg - t := by
        unfold sub64 SIZE_MOD at *; omega
      simp only [truncate_end, he0, hmod, ne_eq, h0, not_false_eq_true, if_true, hsub]
      unfold add64 SIZE_MOD at *
      omega
    have hntr : truncate_ntr base out_sz pg lim = lim - (s + (pg - t)) := by
      unfold truncate_ntr
      rw [hend]
      unfold sub64 SIZE_MOD at *
      omega
    refine ⟨s + (pg - t), hP, by omega, by omega, by omega, hend, hntr, ?_⟩
    rw [hntr]
    unfold sub64 SIZE_MOD at *
    omega

/-- The same at the level of `imgload_poll`: in that range the call returns
true, asks `munmap` for `buf_lim - P` bytes at `out + P`, and the capacity
becomes `P` when the release succeeds and is unchanged when it fails. -/
theorem poll_truncate_within_capacity (w : World) (hdr : img_data) (pre rest : List WaitRes)
    (r : WaitRes) (pg : Nat) (mu : Int)
    (hproc : w.tgt.proc ≠ 0) (hout : w.tgt.out ≠ NULL) (hshm : w.shm = some hdr)
    (hpre : ∀ a ∈ pre, a.rc = -1 ∧ a.errno = EINTR) (hdone : r.rc ≠ -1 ∧ r.rc ≠ 0)
    (hpg : 0 < pg) (hbase : w.tgt.out % pg = 0) (hlim : w.tgt.buf_lim % pg = 0)
    (hfit : sizeof_img_data + hdr.buf_sz ≤ w.tgt.buf_lim)
    (haddr : w.tgt.out + w.tgt.buf_lim < SIZE_MOD) :
    ∃ P w2 tr, P % pg = 0 ∧ sizeof_img_data + hdr.buf_sz ≤ P
      ∧ P < sizeof_img_data + hdr.buf_sz + pg ∧ P ≤ w.tgt.buf_lim
      ∧ imgload_poll w { waits := pre ++ r :: rest, page_size := (pg : Int), munmap_ret := mu }
          = .ret true w2 tr
      ∧ tr.getLast? = some (Call.munmap (w.tgt.out + P) (w.tgt.buf_lim - P))
      ∧ w2.tgt.buf_lim = (if mu = 0 then P else w.tgt.buf_lim) := by
  have hlim_pos : 0 < w.tgt.buf_lim := by unfold sizeof_img_data at hfit; omega
  have hpg_le : pg ≤ w.tgt.buf_lim :=
    Nat.le_of_dvd hlim_pos (Nat.dvd_of_mod_eq_zero hlim)
  have hpgsz : to_size_t (pg : Int) = pg := by
    unfold to_size_t; unfold SIZE_MOD at haddr; omega
  obtain ⟨P, h1, h2, h3, h4, hend, hntr, hnew⟩ :=
    truncate_within_capacity w.tgt.out hdr.buf_sz pg w.tgt.buf_lim hpg hbase hlim hfit haddr
  have hw := waitpid_retry_append pre rest r hpre (by simp [hdone.1])
  have hsz : hdr.buf_sz ≤ w.tgt.buf_lim := by omega
  have hpoll := poll_completion_eq w hdr
    { waits := pre ++ r :: rest, page_size := (pg : Int), munmap_ret := mu } r (pre.length + 1)
    hproc hout hshm hw hdone hsz (by simp only [hpgsz]; omega)
  rw [hntr] at hnew
  simp only [hpgsz, hend, hntr, hnew] at hpoll
  exact ⟨P, _, _, h1, h2, h3, h4, hpoll, getLast_append_triple _ _ _ _, rfl⟩

/-- C2, as the code has it: capacity one megabyte (256 pages of 4096 bytes),
page-aligned base, worker reaped, claimed size equal to the capacity. The
claimed size passes the test `out_sz > buf_lim`, the page boundary lies 4096
bytes past the end of the region, and the byte count handed to `munmap` wraps
to `2 ^ 64 - 4096`; when that `munmap` reports success the tracked capacity
grows to 1052672, and when it fails the capacity stays at 1048576. -/
theorem poll_truncate_wraps_at_full_claim :
    imgload_poll
        { tgt := { fname := "a.png", is_stdin := false, broken := false, proc := 7,
                   out := 139637976727552, buf_lim := 1048576 },
          shm := some { w := 512, h := 512, buf_sz := 1048576, ready := true, x := 0, y := 0 } }
        { waits := [⟨7, 0, 0⟩], page_size := 4096, munmap_ret := 0 }
      = .ret true
        { tgt := { fname := "a.png", is_stdin := false, broken := false, proc := 0,
                   out := 139637976727552, buf_lim := 1052672 },
          shm := some { w := 512, h := 512, buf_sz := 1048576, ready := true, x := 0, y := 0 } }
        [Call.waitpid 7 WNOHANG, Call.printf 0, Call.sysconf_page_size,
         Call.munmap 139637977780224 18446744073709547520]
    ∧ imgload_poll
        { tgt := { fname := "a.png", is_stdin := false, broken := false, proc := 7,
                   out := 139637976727552, buf_lim := 1048576 },
          shm := some { w := 512, h := 512, buf_sz := 1048576, ready := true, x := 0, y := 0 } }
        { waits := [⟨7, 0, 0⟩], page_size := 4096, munmap_ret := -1 }
      = .ret true
        { tgt := { fname := "a.png", is_stdin := false, broken := false, proc := 0,
                   out := 139637976727552, buf_lim := 1048576 },
          shm := some { w := 512, h := 512, buf_sz := 1048576, ready := true, x := 0, y := 0 } }
        [Call.waitpid 7 WNOHANG, Call.printf 0, Call.sysconf_page_size,
         Call.munmap 139637977780224 18446744073709547520]
    ∧ (18446744073709547520 : Nat) = 2 ^ 64 - 4096
    ∧ (1048576 : Nat) < 1052672 := by
  refine ⟨by decide, by decide, by norm_num, by decide⟩

/-- In the range `[0, 2 ^ 31)` the `int` product and its conversion to
`size_t` are exact. -/
theorem pixel_bytes_exact (dw dh : Int) (h0 : 0 ≤ dw * dh * 4)
    (h1 : dw * dh * 4 < 2147483648) : (pixel_bytes dw dh : Int) = dw * dh * 4 := by
  unfold pixel_bytes to_size_t wrap_int
  generalize dw * dh = p at *
  omega

/-- C8, as the code has it: for a decoder result of 32768 by 32768 pixels the
`int` product `dw * dh * 4` wraps to 0, so the worker publishes `buf_sz = 0`
with `ready = true`, while the exact product is 4294967296. -/
theorem worker_claimed_size_wraps :
    (worker { image_size_limit_mb := 1, disable_syscall_flt := false, enable_seccomp := true }
        false
        { fname := "a.png", is_stdin := false, broken := false, proc := 0,
          out := 65536, buf_lim := 1048576 }
        { hdr := img_data.zero, pix := [0, 0, 0, 0, 0, 0, 0, 0] }
        { fopen_ok := true, nfd := 3, decoded := some ⟨32768, 32768, []⟩ }).final
      = some { hdr := { w := 32768, h := 32768, buf_sz := 0, ready := true, x := 0, y := 0 },
               pix := [0, 0, 0, 0, 0, 0, 0, 0] }
    ∧ (32768 : Int) * 32768 * 4 = 4294967296 := by
  constructor
  · decide
  · norm_num

/-- With the source open, the worker branch is the hardening trace followed
by `publish`. -/
theorem worker_eq_publish (cfg : Config) (con : Bool) (tgt : img_state) (r : Region)
    (env : WorkerEnv) (hop : (tgt.is_stdin || env.fopen_ok) = true) :
    worker cfg con tgt r env
      = publish r env.decoded env.overrun_faults
          ((if tgt.is_stdin then [] else [Call.fopen tgt.fname]) ++ [Call.open_dev_null]
            ++ redirect_streams tgt.is_stdin env.nfd ++ harden cfg con) := by
  simp [worker, hop]

/-- When the source cannot be opened the worker exits with failure at once. -/
theorem worker_open_failure_eq (cfg : Config) (con : Bool) (tgt : img_state) (r : Region)
    (env : WorkerEnv) (hop : ¬ (tgt.is_stdin || env.fopen_ok) = true) :
    worker cfg con tgt r env
      = .exited EXIT_FAILURE [r]
          ((if tgt.is_stdin then [] else [Call.fopen tgt.fname])
            ++ [Call.exit EXIT_FAILURE]) := by
  simp [worker, hop]

/-- Closed form of `publish` when the copy fits the pixel area. -/
theorem publish_some_eq (r : Region) (d : Decoded) (flt : Bool) (tr : List Call)
    (hle : pixel_bytes d.dw d.dh ≤ r.pix.length) :
    publish r (some d) flt tr
      = .exited EXIT_SUCCESS
          [r,
           { r with pix := (List.range (pixel_bytes d.dw d.dh)).map (fun i => d.buf.getD i 0)
                            ++ r.pix.drop (pixel_bytes d.dw d.dh) },
           { hdr := { r.hdr with w := d.dw },
             pix := (List.range (pixel_bytes d.dw d.dh)).map (fun i => d.buf.getD i 0)
                      ++ r.pix.drop (pixel_bytes d.dw d.dh) },
           { hdr := { r.hdr with w := d.dw, h := d.dh },
             pix := (List.range (pixel_bytes d.dw d.dh)).map (fun i => d.buf.getD i 0)
                      ++ r.pix.drop (pixel_bytes d.dw d.dh) },
           { hdr := { r.hdr with w := d.dw, h := d.dh, buf_sz := pixel_bytes d.dw d.dh },
             pix := (List.range (pixel_bytes d.dw d.dh)).map (fun i => d.buf.getD i 0)
                      ++ r.pix.drop (pixel_bytes d.dw d.dh) },
           { hdr := { r.hdr with w := d.dw, h := d.dh, buf_sz := pixel_bytes d.dw d.dh,
                                 ready := true },
             pix := (List.range (pixel_bytes d.dw d.dh)).map (fun i => d.buf.getD i 0)
                      ++ r.pix.drop (pixel_bytes d.dw d.dh) }]
          (tr ++ [Call.stbi_load_from_file,
                  Call.memcpy offsetof_buf (pixel_bytes d.dw d.dh),
                  Call.exit EXIT_SUCCESS]) := by
  simp [publish, memcpy_pix, Nat.min_eq_left hle, Nat.sub_eq_zero_of_le hle]

/-- Closed form of `publish` when the copy runs past the region and the
memory behind it is unmapped. -/
theorem publish_overrun_fault (r : Region) (d : Decoded) (tr : List Call)
    (hgt : r.pix.length < pixel_bytes d.dw d.dh) :
    publish r (some d) true tr
      = .killed .SIGSEGV [r, (memcpy_pix r d.buf (pixel_bytes d.dw d.dh)).region]
          (tr ++ [Call.stbi_load_from_file,
                  Call.memcpy offsetof_buf (pixel_bytes d.dw d.dh)]) := by
  have hp : pixel_bytes d.dw d.dh - r.pix.length ≠ 0 := by omega
  simp [publish, memcpy_pix, hp]

/-- Closed form of `publish` when the copy runs past the region and the
memory behind it is mapped. -/
theorem publish_overrun_through (r : Region) (d : Decoded) (tr : List Call) :
    publish r (some d) false tr
      = .exited EXIT_SUCCESS
          [r,
           (memcpy_pix r d.buf (pixel_bytes d.dw d.dh)).region,
           { hdr := { r.hdr with w := d.dw },
             pix := (memcpy_pix r d.buf (pixel_bytes d.dw d.dh)).region.pix },
           { hdr := { r.hdr with w := d.dw, h := d.dh },
             pix := (memcpy_pix r d.buf (pixel_bytes d.dw d.dh)).region.pix },
           { hdr := { r.hdr with w := d.dw, h := d.dh, buf_sz := pixel_bytes d.dw d.dh },
             pix := (memcpy_pix r d.buf (pixel_bytes d.dw d.dh)).region.pix },
           { hdr := { r.hdr with w := d.dw, h := d.dh, buf_sz := pixel_bytes d.dw d.dh,
                                 ready := true },
             pix := (memcpy_pix r d.buf (pixel_bytes d.dw d.dh)).region.pix }]
          (tr ++ [Call.stbi_load_from_file,
                  Call.memcpy offsetof_buf (pixel_bytes d.dw d.dh),
                  Call.exit EXIT_SUCCESS]) := by
  simp [publish, memcpy_pix]

/-- Closed form of `publish` when the decoder returns no buffer. -/
theorem publish_none_eq (r : Region) (flt : Bool) (tr : List Call) :
    publish r none flt tr
      = .exited EXIT_FAILURE [r]
          (tr ++ [Call.stbi_load_from_file, Call.exit EXIT_FAILURE]) := by
  simp [publish]

/-- Copying from a buffer of equal bytes into a zeroed pixel area that is
shorter than the copy fills the whole area and stores the rest past its end. -/
theorem memcpy_pix_fill (hdr : img_data) (len total n v : Nat)
    (h1 : len ≤ n) (h2 : len ≤ total) :
    memcpy_pix { hdr := hdr, pix := List.replicate len 0 } (List.replicate total v) n
      = { region := { hdr := hdr, pix := List.replicate len v }, past := n - len } := by
  have hmap : (List.range len).map (fun i => (List.replicate total v).getD i 0)
      = List.replicate len v := by
    apply List.ext_getElem
    · simp
    · intro i h3 h4
      have hi : i < len := by simpa using h3
      have hi2 : i < total := by omega
      simp [List.getD_eq_getElem?_getD, List.getElem?_replicate, hi2]
  unfold memcpy_pix
  simp only [List.length_replicate, Nat.min_eq_right h1]
  rw [hmap]
  simp

/-- C8 amended: in the worker branch, once the source is open and the region
header is zeroed, (1) for a decoder result `d` whose byte count
`d.dw * d.dh * 4` lies in `[0, 2 ^ 31)` and fits the pixel area, the worker
exits with success, the final header has `w = d.dw`, `h = d.dh`,
`buf_sz = d.dw * d.dh * 4` exactly and `ready = true`, the first `buf_sz`
pixel bytes are the decoder's, and `ready` is true in no earlier region
content than the final one (so it is set after the copy and the other header
stores); (2) when the decoder returns no buffer the region is left as it was
(`ready` false) and the worker exits with failure. -/
theorem worker_publish (cfg : Config) (con : Bool) (tgt : img_state) (r : Region)
    (env : WorkerEnv)
    (hopen : tgt.is_stdin = true ∨ env.fopen_ok = true) (hready : r.hdr.ready = false) :
    (∀ d, env.decoded = some d → 0 ≤ d.dw * d.dh * 4 → d.dw * d.dh * 4 < 2147483648 →
        (d.dw * d.dh * 4).toNat ≤ r.pix.length →
      ∃ hist tr fin,
        worker cfg con tgt r env = .exited EXIT_SUCCESS hist tr
        ∧ hist.getLast? = some fin
        ∧ fin.hdr.w = d.dw ∧ fin.hdr.h = d.dh
        ∧ (fin.hdr.buf_sz : Int) = d.dw * d.dh * 4
        ∧ fin.hdr.ready = true
        ∧ fin.pix.take fin.hdr.buf_sz
            = (List.range fin.hdr.buf_sz).map (fun i => d.buf.getD i 0)
        ∧ fin.pix.length = r.pix.length
        ∧ (∀ s ∈ hist, s.hdr.ready = true → s = fin)
        ∧ tr.getLast? = some (Call.exit EXIT_SUCCESS))
    ∧ (env.decoded = none →
      ∃ tr, worker cfg con tgt r env = .exited EXIT_FAILURE [r] tr
        ∧ tr.getLast? = some (Call.exit EXIT_FAILURE)) := by
  have hop : (tgt.is_stdin || env.fopen_ok) = true := by
    rcases hopen with h | h <;> simp [h]
  constructor
  · intro d hd h0 h1 hfit
    have hn := pixel_bytes_exact d.dw d.dh h0 h1
    have hle : pixel_bytes d.dw d.dh ≤ r.pix.length := by omega
    refine ⟨_, _, _, (worker_eq_publish cfg con tgt r env hop).trans
      ((congrArg (fun o => publish r o _ _) hd).trans (publish_some_eq r d _ _ hle)),
      rfl, rfl, rfl, hn, rfl, ?_, ?_, ?_, ?_⟩
    · simp
    · simp; omega
    · intro s hs hsr
      simp only [List.mem_cons, List.mem_singleton, List.not_mem_nil, or_false] at hs
      rcases hs with h | h | h | h | h | h
      all_goals first
        | exact h
        | (subst h; simp [hready] at hsr)
    · exact getLast_append_triple _ _ _ _
  · intro hd
    exact ⟨_, (worker_eq_publish cfg con tgt r env hop).trans
      ((congrArg (fun o => publish r o _ _) hd).trans (publish_none_eq r _ _)),
      getLast_append_pair _ _ _⟩

/-- Witness of C8 amended: a 2 by 2 image (16 bytes) decoded into a region with
a pixel area of 24 bytes. -/
theorem worker_publish_witness :
    ∃ hist tr fin,
      worker { image_size_limit_mb := 1, disable_syscall_flt := false, enable_seccomp := true }
          false
          { fname := "a.png", is_stdin := false, broken := false, proc := 0,
            out := 65536, buf_lim := 56 }
          { hdr := img_data.zero, pix := List.replicate 24 0 }
          { fopen_ok := true, nfd := 3, decoded := some ⟨2, 2, List.replicate 16 255⟩ }
        = .exited EXIT_SUCCESS hist tr
      ∧ hist.getLast? = some fin
      ∧ fin.hdr.w = 2 ∧ fin.hdr.h = 2
      ∧ (fin.hdr.buf_sz : Int) = 2 * 2 * 4
      ∧ fin.hdr.ready = true
      ∧ fin.pix.take fin.hdr.buf_sz
          = (List.range fin.hdr.buf_sz).map (fun i => (List.replicate 16 255).getD i 0)
      ∧ fin.pix.length = (List.replicate 24 0).length
      ∧ (∀ s ∈ hist, s.hdr.ready = true → s = fin)
      ∧ tr.getLast? = some (Call.exit EXIT_SUCCESS) :=
  (worker_publish
    { image_size_limit_mb := 1, disable_syscall_flt := false, enable_seccomp := true }
    false
    { fname := "a.png", is_stdin := false, broken := false, proc := 0,
      out := 65536, buf_lim := 56 }
    { hdr := img_data.zero, pix := List.replicate 24 0 }
    { fopen_ok := true, nfd := 3, decoded := some ⟨2, 2, List.replicate 16 255⟩ }
    (Or.inr rfl) rfl).1 ⟨2, 2, List.replicate 16 255⟩ rfl (by decide) (by decide) (by decide)

/-- The child branch of `imgload_spawn` in closed form. -/
theorem spawn_child_eq (cfg : Config) (con : Bool) (w : World) (env : SpawnEnv)
    (hmap : env.mmap_ret ≠ NULL ∧ env.mmap_ret ≠ MAP_FAILED) (hfork : env.fork_ret = 0) :
    imgload_spawn cfg con w env
      = .child (worker cfg con
          { w.tgt with buf_lim := region_limit cfg, out := env.mmap_ret, proc := 0 }
          { hdr := img_data.zero,
            pix := List.replicate (region_limit cfg - offsetof_buf) 0 }
          env.worker) := by
  simp [imgload_spawn, hmap.1, hmap.2, hfork]

/-- C9, as the code has it: with a limit of one megabyte the pixel area has
1048548 bytes; for a decoder result of 1024 by 1024 pixels the worker branch
of `imgload_spawn` copies 4194304 bytes to `out->buf` with no bound: the copy
fills the pixel area and stores 3145756 bytes past the end of the region.
When the memory behind the region is unmapped the worker dies there with the
header unpublished; when it is mapped the worker goes on to publish
`buf_sz = 4194304`, above the capacity, and exits with success. -/
theorem spawn_worker_copy_past_region :
    memcpy_pix { hdr := img_data.zero, pix := List.replicate 1048548 0 }
        (List.replicate 4194304 255) (pixel_bytes 1024 1024)
      = { region := { hdr := img_data.zero, pix := List.replicate 1048548 255 },
          past := 3145756 }
    ∧ imgload_spawn
        { image_size_limit_mb := 1, disable_syscall_flt := false, enable_seccomp := true }
        false (World.init "a.png" false)
        { mmap_ret := 65536, fork_ret := 0,
          worker := { fopen_ok := true, nfd := 3,
                      decoded := some ⟨1024, 1024, List.replicate 4194304 255⟩,
                      overrun_faults := true } }
      = .child (.killed .SIGSEGV
          [{ hdr := img_data.zero, pix := List.replicate 1048548 0 },
           { hdr := img_data.zero, pix := List.replicate 1048548 255 }]
          [Call.fopen "a.png", Call.open_dev_null, Call.dup2 3 0, Call.dup2 3 1,
           Call.dup2 3 2, Call.close 3, Call.setgid 65534, Call.setuid 65534,
           Call.setrlimit_zero 0, Call.setrlimit_zero 1, Call.setrlimit_zero 2,
           Call.setrlimit_zero 3, Call.seccomp_load, Call.stbi_load_from_file,
           Call.memcpy 28 4194304])
    ∧ imgload_spawn
        { image_size_limit_mb := 1, disable_syscall_flt := false, enable_seccomp := true }
        false (World.init "a.png" false)
        { mmap_ret := 65536, fork_ret := 0,
          worker := { fopen_ok := true, nfd := 3,
                      decoded := some ⟨1024, 1024, List.replicate 4194304 255⟩,
                      overrun_faults := false } }
      = .child (.exited EXIT_SUCCESS
          [{ hdr := img_data.zero, pix := List.replicate 1048548 0 },
           { hdr := img_data.zero, pix := List.replicate 1048548 255 },
           { hdr := { w := 1024, h := 0, buf_sz := 0, ready := false, x := 0, y := 0 },
             pix := List.replicate 1048548 255 },
           { hdr := { w := 1024, h := 1024, buf_sz := 0, ready := false, x := 0, y := 0 },
             pix := List.replicate 1048548 255 },
           { hdr := { w := 1024, h := 1024, buf_sz := 4194304, ready := false, x := 0, y := 0 },
             pix := List.replicate 1048548 255 },
           { hdr := { w := 1024, h := 1024, buf_sz := 4194304, ready := true, x := 0, y := 0 },
             pix := List.replicate 1048548 255 }]
          [Call.fopen "a.png", Call.open_dev_null, Call.dup2 3 0, Call.dup2 3 1,
           Call.dup2 3 2, Call.close 3, Call.setgid 65534, Call.setuid 65534,
           Call.setrlimit_zero 0, Call.setrlimit_zero 1, Call.setrlimit_zero 2,
           Call.setrlimit_zero 3, Call.seccomp_load, Call.stbi_load_from_file,
           Call.memcpy 28 4194304, Call.exit EXIT_SUCCESS])
    ∧ (1048576 : Nat) < 4194304 := by
  have hlim : region_limit
      { image_size_limit_mb := 1, disable_syscall_flt := false, enable_seccomp := true }
      - offsetof_buf = 1048548 := by decide
  have hpb : pixel_bytes 1024 1024 = 4194304 := by decide
  have hfill := memcpy_pix_fill img_data.zero 1048548 4194304 4194304 255
    (by decide) (by decide)
  refine ⟨?_, ?_, ?_, by decide⟩
  · rw [hpb, hfill]
  · rw [spawn_child_eq _ _ _ _ (by decide) rfl, worker_eq_publish _ _ _ _ _ (by decide)]
    rw [publish_overrun_fault _ _ _ (by rw [List.length_replicate, hlim, hpb]; decide)]
    simp only [hlim, hpb, hfill]
    rfl
  · rw [spawn_child_eq _ _ _ _ (by decide) rfl, worker_eq_publish _ _ _ _ _ (by decide)]
    rw [publish_overrun_through]
    simp only [hlim, hpb, hfill]
    rfl

end Imgload
